import Mathlib

/-!
Shallow embedding of the reyer runtime core (somamizobuchi/reyer).

The definitions below are translated from the C++ sources:
  * `reyer::core::Queue`                      (reyer/core/queue.hpp)
  * `reyer::plugin::Pipeline`,
    `reyer::plugin::EyeDataPipeline`          (reyer/plugin/pipeline.hpp)
  * `reyer::plugin::SourceBase::waitForData`  (reyer/plugin/defs.hpp)
  * `reyer_rt::managers::PipelineManager`     (reyer_rt/managers/pipeline_manager.hpp)
  * `reyer_rt::managers::ProtocolManager`     (reyer_rt/managers/protocol_manager.cpp)
  * `reyer_rt::managers::GraphicsManager`     (reyer_rt/managers/graphics_manager.cpp)
  * `reyer_rt::managers::MessageManager::MessageVisitor`
                                              (reyer_rt/managers/message_manager.cpp)

Stateful C++ objects become Lean structures; each member function becomes a
pure state-passing function.  Calls into plugins (calibration, stages, sinks)
are recorded in an explicit call log so that ordering claims can be stated.
Broadcast events are appended to an explicit trace.
-/

namespace Reyer

/-! ## reyer::core::Queue  (queue.hpp)

The C++ queue holds a `std::queue<T>`; we model the contents as a list with
the front of the queue at the head of the list.  `push` appends at the back,
`try_pop` removes the front.  The condition-variable wait in
`wait_and_pop(T&, std::stop_token)` wakes when the queue is non-empty or the
token is signalled; the predicate result decides whether a value is popped.
A wait on an empty queue without a signalled token never returns, which the
embedding represents with the explicit outcome `blocked`. -/

structure Queue (α : Type) where
  items : List α
  deriving DecidableEq, Repr

namespace Queue

/-- The freshly constructed empty queue. -/
def emptyQ {α : Type} : Queue α := ⟨[]⟩

/-- Model of `Queue::push`: appends the value at the back, unconditionally. -/
def push {α : Type} (q : Queue α) (v : α) : Queue α := ⟨q.items ++ [v]⟩

/-- Model of `Queue::try_pop`: returns the front element (if any) and the
remaining queue. -/
def tryPop {α : Type} (q : Queue α) : Option α × Queue α :=
  match q.items with
  | [] => (none, ⟨[]⟩)
  | x :: rest => (some x, ⟨rest⟩)

/-- Outcome of `Queue::wait_and_pop(T&, std::stop_token)`: a value was
delivered, the wait was stopped by the token, or the call never returns. -/
inductive WaitResult (α : Type) where
  | value (a : α)
  | stopped
  | blocked
  deriving DecidableEq, Repr

/-- Model of `Queue::wait_and_pop(T& value, std::stop_token stoken)`.
The predicate passed to `cond_.wait` is `!queue_.empty()`, so a non-empty
queue always delivers its front element (even if the token is already
signalled); an empty queue with a signalled token returns `false` without
consuming; an empty queue with no signal blocks. -/
def waitAndPop {α : Type} (q : Queue α) (stokenStop : Bool) :
    WaitResult α × Queue α :=
  match q.items with
  | x :: rest => (WaitResult.value x, ⟨rest⟩)
  | [] => if stokenStop then (WaitResult.stopped, ⟨[]⟩) else (WaitResult.blocked, ⟨[]⟩)

/-- Pushing a whole list of values, one `push` call per element. -/
def pushAll {α : Type} (q : Queue α) (xs : List α) : Queue α :=
  xs.foldl push q

end Queue

/-- Formalisation of the claim that a queue instance has a bounded capacity:
some bound `cap` limits the size of the queue no matter how many values a
producer pushes.  The code has no capacity parameter at all, so this is
refutable. -/
def queueCapacityBounded : Prop :=
  ∃ cap : Nat, ∀ xs : List Nat, (Queue.pushAll Queue.emptyQ xs).items.length ≤ cap

/-! ## reyer::plugin::Pipeline and EyeDataPipeline  (pipeline.hpp)

`Pipeline<T>::processData` runs every stage over the sample in place and then
passes the result to every sink; `EyeDataPipeline::processData` first applies
the calibration if one is set.  Stages are modelled as value transformers;
sinks are identified by a number.  Every plugin call is recorded in a call
log so that the order of calls is observable. -/

/-- One call made by the pipeline into a plugin while processing a sample. -/
inductive CallEv (α : Type) where
  | calibrateCall (input : α)
  | stageCall (index : Nat) (input : α)
  | consumeCall (sink : Nat) (value : α)
  deriving DecidableEq, Repr

/-- State of `Pipeline<T>`: the optional source (by identifier), the stage
list and the sink list, both in insertion order (`addStage` / `addSink` use
`push_back`). -/
structure Pipeline (α : Type) where
  source : Option Nat
  stages : List (α → α)
  sinks : List Nat

namespace Pipeline

/-- Model of `Pipeline::addStage` (`stages_.push_back(stage)`). -/
def addStage {α : Type} (p : Pipeline α) (s : α → α) : Pipeline α :=
  { p with stages := p.stages ++ [s] }

/-- Model of `Pipeline::addSink` (`sinks_.push_back(sink)`). -/
def addSink {α : Type} (p : Pipeline α) (s : Nat) : Pipeline α :=
  { p with sinks := p.sinks ++ [s] }

/-- The stage loop of `Pipeline::processData`: `for (auto *stage : stages_)
stage->process(data);`.  Returns the transformed sample and the log of
`process` calls, each recording the value passed in. -/
def stagesLoop {α : Type} : List (α → α) → Nat → α → α × List (CallEv α)
  | [], _, data => (data, [])
  | s :: rest, idx, data =>
    let out := stagesLoop rest (idx + 1) (s data)
    (out.1, CallEv.stageCall idx data :: out.2)

/-- The sink loop of `Pipeline::processData`: `for (auto *sink : sinks_)
sink->consume(data);`. -/
def sinksLoop {α : Type} : List Nat → α → List (CallEv α)
  | [], _ => []
  | s :: rest, data => CallEv.consumeCall s data :: sinksLoop rest data

/-- Model of `Pipeline<T>::processData`: stages in order, then sinks in
insertion order, all on the same (mutated-in-place) sample. -/
def processData {α : Type} (p : Pipeline α) (data : α) : α × List (CallEv α) :=
  let st := stagesLoop p.stages 0 data
  (st.1, st.2 ++ sinksLoop p.sinks st.1)

end Pipeline

/-- State of `EyeDataPipeline`: the base pipeline plus the optional
calibration plugin, modelled as a value transformer. -/
structure EyeDataPipeline (α : Type) where
  toPipeline : Pipeline α
  calibration : Option (α → α)

namespace EyeDataPipeline

/-- Model of `EyeDataPipeline::processData`: `if (calibration_)
calibration_->calibrate(&data); Pipeline::processData(data);`. -/
def processData {α : Type} (p : EyeDataPipeline α) (data : α) :
    α × List (CallEv α) :=
  match p.calibration with
  | some cal =>
    let base := p.toPipeline.processData (cal data)
    (base.1, CallEv.calibrateCall data :: base.2)
  | none => p.toPipeline.processData data

/-- Processing a stream of samples, one `processData` call per sample, with
the call logs concatenated in arrival order. -/
def processSamples {α : Type} (p : EyeDataPipeline α) :
    List α → List (CallEv α)
  | [] => []
  | d :: rest => (p.processData d).2 ++ processSamples p rest

end EyeDataPipeline

/-! ## SourceBase::waitForData and PipelineManager::Run

`SourceBase<T>::waitForData` forwards to `output_queue_.wait_and_pop(out,
cancel_source_.get_token())`.  One iteration of `PipelineManager::Run`
snapshots the source, waits for a sample, and on success processes it; when
`waitForData` returns `false` (cancellation) the iteration returns without
touching calibration, stages or sinks. -/

/-- Model of `SourceBase<T>::waitForData`: the source delivers from its own
output queue, observing its internal cancellation token. -/
def SourceBase.waitForData {α : Type} (outputQueue : Queue α)
    (cancelRequested : Bool) : Queue.WaitResult α × Queue α :=
  Queue.waitAndPop outputQueue cancelRequested

/-- State owned by `PipelineManager` that one `Run` iteration touches: the
pipeline (under the mutex) and the state of the bound source. -/
structure PipelineManagerState (α : Type) where
  pipeline : EyeDataPipeline α
  sourceQueue : Queue α
  sourceCancelRequested : Bool

/-- Model of one iteration of `PipelineManager::Run`.  Returns `none` when
the iteration never completes (the wait blocks); otherwise returns the new
state together with the log of all calibration, stage and sink calls made in
this iteration. -/
def PipelineManager.runStep {α : Type} (s : PipelineManagerState α) :
    Option (PipelineManagerState α × List (CallEv α)) :=
  match s.pipeline.toPipeline.source with
  | none => some (s, [])
  | some _ =>
    match SourceBase.waitForData s.sourceQueue s.sourceCancelRequested with
    | (Queue.WaitResult.blocked, _) => none
    | (Queue.WaitResult.stopped, q) =>
      some ({ s with sourceQueue := q }, [])
    | (Queue.WaitResult.value a, q) =>
      some ({ s with sourceQueue := q }, (s.pipeline.processData a).2)

/-! ## Message and protocol data  (net/message_types.hpp, experiment/protocol.hpp) -/

/-- One task of a protocol: a plugin name plus a JSON configuration string. -/
structure Task where
  name : String
  configuration : String
  deriving DecidableEq, Repr

/-- The `ProtocolRequest` message. -/
structure ProtocolRequest where
  name : String
  participant_id : String
  notes : String
  tasks : List Task
  protocol_uuid : String
  deriving DecidableEq, Repr

/-- The `Command` enumeration of message_types.hpp. -/
inductive Command where
  | start
  | stop
  | next
  | exit
  deriving DecidableEq, Repr

/-- The observable `RuntimeState` enumeration of message_types.hpp. -/
inductive RuntimeState where
  | default
  | standby
  | running
  | saving
  deriving DecidableEq, Repr

/-- The `ProtocolEvent` enumeration: lifecycle events broadcast on the
PROTOCOL topic.  `taskStart` and `taskEnd` carry the task index. -/
inductive ProtocolEvent where
  | graphicsReady
  | protocolNew
  | taskStart (index : Nat)
  | taskEnd (index : Nat)
  | protocolLoaded
  deriving DecidableEq, Repr

/-- Semantic error kinds surfaced at the reply boundary (`std::errc` values
used by the managers). -/
inductive ErrorKind where
  | busy
  | noMessage
  | notPermitted
  | resourceUnavailable
  | badMessage
  | invalidArgument
  deriving DecidableEq, Repr

/-- What the plugin registry records about one plugin, as far as task loading
is concerned: whether the `IRender` interface query succeeds. -/
structure PluginEntry where
  isRender : Bool
  deriving DecidableEq, Repr

/-- The plugin registry: `PluginManager::GetPlugin` by name. -/
def Registry : Type := String → Option PluginEntry

/-! ## ProtocolManager  (protocol_manager.cpp, part of part_011)

State: `IDLE | STANDBY | RUNNING | SAVING`; the current protocol and the
pending flag behind `protocolMutex_`; the loaded task plugin and its index;
the HDF5 file/group and data-writer sink; a command queue.  Cross-component
effects (pipeline sinks, the graphics current task, the standby info) are
folded into the state record; broadcasts append to `trace`. -/

/-- The private `State` enumeration of `ProtocolManager`. -/
inductive PState where
  | idle
  | standby
  | running
  | saving
  deriving DecidableEq, Repr

/-- The private `LoadCommand` enumeration of `ProtocolManager`. -/
inductive LoadCommand where
  | first
  | next
  | prev
  | last
  | finish
  deriving DecidableEq, Repr

/-- The state of a `ProtocolManager` together with the parts of the graphics
manager and the pipeline it drives, and the broadcast trace it has emitted. -/
structure ProtocolManager where
  state : PState
  currentProtocol : Option ProtocolRequest
  protocolUpdated : Bool
  currentTask : Option Task
  currentTaskIndex : Nat
  hasFile : Bool
  hasGroup : Bool
  writerRunning : Bool
  pipelineSinks : List String
  graphicsTask : Option Task
  standbyName : Option String
  commandQueue : List Command
  trace : List ProtocolEvent
  deriving DecidableEq, Repr

namespace ProtocolManager

/-- The manager right after `Init()`: `state_ = IDLE`, nothing loaded. -/
def initState : ProtocolManager where
  state := PState.idle
  currentProtocol := none
  protocolUpdated := false
  currentTask := none
  currentTaskIndex := 0
  hasFile := false
  hasGroup := false
  writerRunning := false
  pipelineSinks := []
  graphicsTask := none
  standbyName := none
  commandQueue := []
  trace := []

/-- Model of `ProtocolManager::SetProtocol`: rejected (returns `false`, no
mutation) while RUNNING; otherwise stores the protocol and sets the pending
flag. -/
def SetProtocol (s : ProtocolManager) (p : ProtocolRequest) :
    Bool × ProtocolManager :=
  if s.state = PState.running then (false, s)
  else (true, { s with currentProtocol := some p, protocolUpdated := true })

/-- Model of `ProtocolManager::EnqueueCommand`: pushes onto the command
queue (the one-shot reply channel is left implicit). -/
def EnqueueCommand (s : ProtocolManager) (c : Command) : ProtocolManager :=
  { s with commandQueue := s.commandQueue ++ [c] }

/-- Model of `ProtocolManager::GetRuntimeState`: SAVING is reported as
RUNNING; IDLE is reported as STANDBY when graphics is initialized and as
DEFAULT otherwise. -/
def GetRuntimeState (s : ProtocolManager) (graphicsInitDone : Bool) :
    RuntimeState :=
  match s.state with
  | PState.idle => if graphicsInitDone then RuntimeState.standby else RuntimeState.default
  | PState.standby => RuntimeState.standby
  | PState.running => RuntimeState.running
  | PState.saving => RuntimeState.running

/-- Model of `ProtocolManager::cleanupCurrentTask_`: remove the pipeline
sinks, stop and drop the data writer, drop the HDF5 group, and if a task is
loaded shut it down and clear it from the graphics manager.  No broadcast is
emitted here. -/
def cleanupCurrentTask (s : ProtocolManager) : ProtocolManager :=
  let s1 := { s with pipelineSinks := [], writerRunning := false, hasGroup := false }
  match s1.currentTask with
  | some _ => { s1 with currentTask := none, graphicsTask := none }
  | none => s1

/-- The body of `ProtocolManager::loadTask_` after the next index has been
computed: tears down the current task (with a TASK_END broadcast) if one is
loaded; past the end of the task list enters SAVING; otherwise looks the
task name up in the registry, requires the `IRender` interface, installs the
task as the pipeline sink (plus a data-writer sink when a dataset file is
open), hands it to the graphics manager, broadcasts TASK_START and enters
RUNNING. -/
def loadTaskCore (reg : Registry) (s : ProtocolManager) (p : ProtocolRequest)
    (nextIndex : Nat) : ProtocolManager :=
  let len := p.tasks.length
  let s1 :=
    match s.currentTask with
    | some _ =>
      { s with
        pipelineSinks := [],
        writerRunning := false,
        hasGroup := false,
        currentTask := none,
        graphicsTask := none,
        trace := s.trace ++ [ProtocolEvent.taskEnd s.currentTaskIndex] }
    | none => s
  if len ≤ nextIndex then
    { s1 with currentTask := none, state := PState.saving }
  else
    let task := p.tasks.getD nextIndex { name := "", configuration := "" }
    match reg task.name with
    | none => { s1 with currentTask := none, state := PState.saving }
    | some entry =>
      if entry.isRender then
        { s1 with
          currentTask := some task,
          currentTaskIndex := nextIndex,
          pipelineSinks := [task.name] ++ (if s1.hasFile then ["writer"] else []),
          hasGroup := s1.hasFile,
          writerRunning := s1.hasFile,
          graphicsTask := some task,
          trace := s1.trace ++ [ProtocolEvent.taskStart nextIndex],
          state := PState.running }
      else { s1 with currentTask := none, state := PState.saving }

/-- Model of `ProtocolManager::loadTask_`: returns unchanged without a
protocol; computes the next index from the load command and runs the task
switch. -/
def loadTask (reg : Registry) (s : ProtocolManager) (cmd : LoadCommand) :
    ProtocolManager :=
  match s.currentProtocol with
  | none => s
  | some p =>
    let len := p.tasks.length
    let nextIndex : Nat :=
      match cmd with
      | LoadCommand.first => 0
      | LoadCommand.last => len - 1
      | LoadCommand.next => s.currentTaskIndex + 1
      | LoadCommand.prev => if s.currentTaskIndex = 0 then 0 else s.currentTaskIndex - 1
      | LoadCommand.finish => len
    loadTaskCore reg s p nextIndex

/-- Model of `ProtocolManager::pollCommands_`: pop at most one command and
act on it according to the current state.  START (from STANDBY) assigns the
fresh run UUID, creates the dataset file, broadcasts PROTOCOL_NEW and loads
task 0; STOP and NEXT act only in RUNNING; EXIT in RUNNING enters SAVING. -/
def pollCommands (reg : Registry) (freshUuid : String) (s : ProtocolManager) :
    ProtocolManager :=
  match s.commandQueue with
  | [] => s
  | cmd :: rest =>
    let s0 := { s with commandQueue := rest }
    match cmd with
    | Command.start =>
      if s0.state = PState.standby then
        let s1 :=
          match s0.currentProtocol with
          | some p =>
            { s0 with
              currentProtocol := some { p with protocol_uuid := freshUuid },
              hasFile := true,
              trace := s0.trace ++ [ProtocolEvent.protocolNew] }
          | none => s0
        loadTask reg s1 LoadCommand.first
      else s0
    | Command.stop =>
      if s0.state = PState.running then loadTask reg s0 LoadCommand.finish else s0
    | Command.next =>
      if s0.state = PState.running then loadTask reg s0 LoadCommand.next else s0
    | Command.exit =>
      if s0.state = PState.running then { s0 with state := PState.saving } else s0

/-- Model of `ProtocolManager::loadProtocol_`: clear the pending flag; with
no protocol fall back to IDLE; otherwise enter STANDBY, push the protocol
name to the graphics standby screen and broadcast PROTOCOL_LOADED. -/
def loadProtocol (s : ProtocolManager) : ProtocolManager :=
  let s0 := { s with protocolUpdated := false }
  match s0.currentProtocol with
  | none =>
    { s0 with state := PState.idle, currentTaskIndex := 0, standbyName := none }
  | some p =>
    { s0 with
      state := PState.standby,
      standbyName := some p.name,
      trace := s0.trace ++ [ProtocolEvent.protocolLoaded] }

/-- External signals one `Run` iteration observes from the graphics manager:
`ConsumeStartRequest()` and `IsCurrentTaskFinished()`. -/
structure RunInputs where
  startRequested : Bool
  taskFinished : Bool
  deriving DecidableEq, Repr

/-- Model of one iteration of `ProtocolManager::Run`: poll the command
queue, then act on the state.  IDLE/STANDBY reload a pending protocol;
STANDBY turns a graphics start request into a START command; RUNNING turns a
finished task into a NEXT command; SAVING cleans up the current task, drops
the dataset file, resets the index and returns to STANDBY. -/
def runStep (reg : Registry) (freshUuid : String) (inp : RunInputs)
    (s : ProtocolManager) : ProtocolManager :=
  let s0 := pollCommands reg freshUuid s
  match s0.state with
  | PState.idle => if s0.protocolUpdated then loadProtocol s0 else s0
  | PState.standby =>
    let s1 := if s0.protocolUpdated then loadProtocol s0 else s0
    if inp.startRequested then EnqueueCommand s1 Command.start else s1
  | PState.running =>
    if inp.taskFinished then EnqueueCommand s0 Command.next else s0
  | PState.saving =>
    let s1 := cleanupCurrentTask s0
    { s1 with hasFile := false, currentTaskIndex := 0, state := PState.standby }

/-- The transitions the protocol-manager state can undergo: one `Run`
iteration (with some fresh UUID and graphics signals), an external
`SetProtocol` call, or an external `EnqueueCommand` call. -/
inductive Step (reg : Registry) : ProtocolManager → ProtocolManager → Prop where
  | run (freshUuid : String) (inp : RunInputs) (s : ProtocolManager) :
      Step reg s (runStep reg freshUuid inp s)
  | setProt (p : ProtocolRequest) (s : ProtocolManager) :
      Step reg s (SetProtocol s p).2
  | enqueue (c : Command) (s : ProtocolManager) :
      Step reg s (EnqueueCommand s c)

/-- States reachable from the freshly initialized manager. -/
def Reachable (reg : Registry) (s : ProtocolManager) : Prop :=
  Relation.ReflTransGen (Step reg) initState s

end ProtocolManager

/-! ## GraphicsManager  (graphics_manager.cpp, part of part_011)

The graphics manager relevant to graphics settings: a two-state machine
`DEFAULT → READY`.  `SetGraphicsSettings` fails with
`operation_not_permitted` unless the state is still DEFAULT; otherwise the
request is queued.  The render loop applies a queued request only from the
DEFAULT branch, records the settings, and moves to READY. -/

/-- The `GraphicsSettings` record (monitor index, resolution, etc.). -/
structure GraphicsSettings where
  monitor_index : Int
  vsync : Bool
  full_screen : Bool
  anti_aliasing : Bool
  target_fps : Int
  width : Int
  height : Int
  deriving DecidableEq, Repr

/-- The `GraphicsSettingsRequest` message: settings plus viewing distance. -/
structure GraphicsSettingsRequest where
  graphics_settings : GraphicsSettings
  view_distance_mm : Nat
  deriving DecidableEq, Repr

/-- The private `State` enumeration of the graphics manager: DEFAULT before
the window is created, READY afterwards. -/
inductive GState where
  | default
  | ready
  deriving DecidableEq, Repr

/-- The state of the graphics manager that the graphics-settings claims
touch.  `applied` logs every `applyGraphicsSettings_` call. -/
structure GraphicsManager where
  state : GState
  settingsQueue : List GraphicsSettingsRequest
  graphicsSettings : Option GraphicsSettingsRequest
  graphicsInitDone : Bool
  applied : List GraphicsSettingsRequest
  deriving DecidableEq, Repr

namespace GraphicsManager

/-- The manager right after `Init()`: state DEFAULT, nothing applied. -/
def initState : GraphicsManager where
  state := GState.default
  settingsQueue := []
  graphicsSettings := none
  graphicsInitDone := false
  applied := []

/-- Model of `GraphicsManager::SetGraphicsSettings`: if the state is no
longer DEFAULT the promise is failed immediately with
`operation_not_permitted`; otherwise the request is pushed onto the settings
queue for the render thread. -/
def SetGraphicsSettings (s : GraphicsManager) (req : GraphicsSettingsRequest) :
    Option ErrorKind × GraphicsManager :=
  if s.state ≠ GState.default then (some ErrorKind.notPermitted, s)
  else (none, { s with settingsQueue := s.settingsQueue ++ [req] })

/-- Model of `GraphicsManager::applyGraphicsSettings_`: create the window,
record the settings, mark graphics initialized and move to READY. -/
def applyGraphicsSettings (s : GraphicsManager) (req : GraphicsSettingsRequest) :
    GraphicsManager :=
  { s with
    graphicsSettings := some req,
    graphicsInitDone := true,
    state := GState.ready,
    applied := s.applied ++ [req] }

/-- Model of one iteration of `GraphicsManager::Run`: in DEFAULT, pop a
queued settings request (if any) and apply it; in READY the loop renders and
leaves the settings state alone. -/
def runStep (s : GraphicsManager) : GraphicsManager :=
  match s.state with
  | GState.default =>
    match s.settingsQueue with
    | [] => s
    | r :: rest => applyGraphicsSettings { s with settingsQueue := rest } r
  | GState.ready => s

/-- The transitions the graphics-manager state can undergo: one render-loop
iteration or an external `SetGraphicsSettings` call. -/
inductive Step : GraphicsManager → GraphicsManager → Prop where
  | run (s : GraphicsManager) : Step s (runStep s)
  | set (req : GraphicsSettingsRequest) (s : GraphicsManager) :
      Step s (SetGraphicsSettings s req).2

/-- States reachable from the freshly initialized graphics manager. -/
def Reachable (s : GraphicsManager) : Prop :=
  Relation.ReflTransGen Step initState s

end GraphicsManager

/-! ## MessageManager::MessageVisitor, ProtocolRequest dispatch
 (message_manager.cpp)

The reply server locks the managers, rejects with `no_message` when the
registry reports no available plugins at all, looks every task name up in
the registry (collecting a soft-log warning for unknown names but putting
every task back into the protocol), assigns a fresh UUID when the request
carries none, and hands the protocol to `SetProtocol`, surfacing `Busy` when
that is rejected. -/

namespace MessageManager

/-- The task-scanning loop of the ProtocolRequest handler: clears
`protocol.tasks`, then for each request task queries the registry, warns on
lookup failure, and re-adds the task unconditionally.  Returns the warnings
and the rebuilt task list. -/
def scanTasks (reg : Registry) (tasks : List Task) : List String × List Task :=
  tasks.foldl
    (fun acc task =>
      match reg task.name with
      | none => (acc.1 ++ [task.name], acc.2 ++ [task])
      | some _ => (acc.1, acc.2 ++ [task]))
    (([], []) : List String × List Task)

/-- The UUID-assignment step of the ProtocolRequest handler: generate a
fresh UUID only when the client did not provide one. -/
def assignUuid (freshUuid : String) (p : ProtocolRequest) : ProtocolRequest :=
  if p.protocol_uuid = "" then { p with protocol_uuid := freshUuid } else p

/-- Model of `MessageVisitor::operator()(const ProtocolRequest&)`.
`available` is `PluginManager::GetAvailablePlugins()`; `freshUuid` is the
value `utils::uuid_v4()` would produce.  Returns the reply outcome, the
protocol-manager state after the call, and the soft-log warnings. -/
def handleProtocolRequest (available : List String) (reg : Registry)
    (freshUuid : String) (s : ProtocolManager) (req : ProtocolRequest) :
    Except ErrorKind Unit × ProtocolManager × List String :=
  if available.isEmpty then (Except.error ErrorKind.noMessage, s, [])
  else
    let scanned := scanTasks reg req.tasks
    let protocol := assignUuid freshUuid { req with tasks := scanned.2 }
    let result := ProtocolManager.SetProtocol s protocol
    if result.1 then (Except.ok (), result.2, scanned.1)
    else (Except.error ErrorKind.busy, result.2, scanned.1)

end MessageManager

/-! ## The broadcast-order automaton for the PROTOCOL topic

A nondeterministic acceptor for the lifecycle-event order: PROTOCOL_LOADED
may repeat while a protocol sits in standby, PROTOCOL_NEW starts a run, and
TASK_START / TASK_END strictly alternate inside a run.  A run can end
silently (SAVING → STANDBY emits nothing), which the closure accounts for:
from inside a run the machine may silently return to the standby phase. -/

/-- Phases of the acceptor: nothing loaded, protocol loaded (standby),
inside a run between tasks, inside a task. -/
inductive Phase where
  | pIdle
  | pLoaded
  | pRun
  | pTask
  deriving DecidableEq, Repr

namespace Phase

/-- Phases silently reachable from a phase: a run may end at any point
(SAVING → STANDBY broadcasts nothing), returning to the loaded phase. -/
def closure : Phase → List Phase
  | Phase.pIdle => [Phase.pIdle]
  | Phase.pLoaded => [Phase.pLoaded]
  | Phase.pRun => [Phase.pRun, Phase.pLoaded]
  | Phase.pTask => [Phase.pTask, Phase.pLoaded]

/-- The event-consuming transitions of the acceptor. -/
def stepBase : Phase → ProtocolEvent → Option Phase
  | Phase.pIdle, ProtocolEvent.protocolLoaded => some Phase.pLoaded
  | Phase.pLoaded, ProtocolEvent.protocolLoaded => some Phase.pLoaded
  | Phase.pLoaded, ProtocolEvent.protocolNew => some Phase.pRun
  | Phase.pRun, ProtocolEvent.taskStart _ => some Phase.pTask
  | Phase.pTask, ProtocolEvent.taskEnd _ => some Phase.pRun
  | _, _ => none

/-- One acceptor step: silently close over possible run endings, then
consume the event. -/
def stepNfa (p : Phase) (e : ProtocolEvent) : List Phase :=
  p.closure.filterMap (fun q => stepBase q e)

end Phase

/-- The set of acceptor phases reachable after reading a trace, starting
from the idle phase.  A trace is a valid prefix of the lifecycle order
exactly when this list is non-empty. -/
def reachPhases (t : List ProtocolEvent) : List Phase :=
  t.foldl (fun ps e => ps.flatMap (fun p => Phase.stepNfa p e)) [Phase.pIdle]

/-- Abstraction of a protocol-manager state to an acceptor phase.  SAVING
maps to the in-task phase while the task is still loaded (EXIT leaves it
loaded) and to the between-tasks phase otherwise. -/
def phaseOf (s : ProtocolManager) : Phase :=
  match s.state with
  | PState.idle => Phase.pIdle
  | PState.standby => Phase.pLoaded
  | PState.running => Phase.pTask
  | PState.saving =>
    if s.currentTask.isSome then Phase.pTask else Phase.pRun

/-! ## Helper lemmas -/

namespace Queue

theorem pushAll_items {α : Type} (xs : List α) (q : Queue α) :
    (pushAll q xs).items = q.items ++ xs := by
  induction xs generalizing q with
  | nil => simp [pushAll]
  | cons x rest ih =>
    simp only [pushAll, List.foldl_cons] at *
    rw [ih (push q x)]
    simp [push]

theorem pushAll_eq {α : Type} (xs : List α) (q : Queue α) :
    pushAll q xs = ⟨q.items ++ xs⟩ := by
  have h := pushAll_items xs q
  rcases hq : pushAll q xs with ⟨l⟩
  rw [hq] at h
  simp only at h
  rw [h]

end Queue

/-! ## Claims about the queue (C4, C5) -/

/-- C4 counterexample: the claim asserts a bounded per-instance capacity with
producers blocking on `push` when full.  `Queue::push` unconditionally
appends (there is no capacity member at all), so no bound on the queue size
can exist: pushing `cap + 1` values yields a queue of size `cap + 1`. -/
theorem queue_capacity_not_bounded : ¬ queueCapacityBounded := by
  rintro ⟨cap, h⟩
  have h2 := h (List.replicate (cap + 1) 0)
  rw [Queue.pushAll_items] at h2
  simp [Queue.emptyQ] at h2

/-- C4 (amended): every queue instance is an unbounded FIFO: `push` always
appends at the back and never blocks or rejects (each push grows the queue
by exactly one element, whatever its current size), and `try_pop` returns
values in push order — the first value pushed into an empty queue is the
first one popped, leaving the queue of the remaining pushes. -/
theorem queue_unbounded_fifo :
    (∀ (α : Type) (q : Queue α) (v : α),
      (Queue.push q v).items.length = q.items.length + 1)
    ∧ (∀ (α : Type) (x : α) (xs : List α),
      Queue.tryPop (Queue.pushAll Queue.emptyQ (x :: xs))
        = (some x, Queue.pushAll Queue.emptyQ xs)) := by
  constructor
  · intro α q v
    simp [Queue.push]
  · intro α x xs
    rw [Queue.pushAll_eq, Queue.pushAll_eq]
    simp [Queue.tryPop, Queue.emptyQ]

/-- C5: `wait_and_pop(T&, stop_token)` delivers the front element and
removes exactly it whenever one is available; when the token is signalled
first (empty queue, stop requested) it returns the stopped indication and
removes nothing; an empty queue with no signal blocks. -/
theorem waitAndPop_spec :
    (∀ (α : Type) (x : α) (rest : List α) (stokenStop : Bool),
      Queue.waitAndPop (Queue.mk (x :: rest)) stokenStop
        = (Queue.WaitResult.value x, Queue.mk rest))
    ∧ (∀ (α : Type),
      Queue.waitAndPop (Queue.mk ([] : List α)) true
        = (Queue.WaitResult.stopped, Queue.mk []))
    ∧ (∀ (α : Type),
      Queue.waitAndPop (Queue.mk ([] : List α)) false
        = (Queue.WaitResult.blocked, Queue.mk [])) :=
  ⟨fun _ _ _ _ => rfl, fun _ => rfl, fun _ => rfl⟩

/-! ## Claim C6: no downstream call on a cancelled wait -/

/-- C6: in a pipeline-loop iteration in which the bound source's
`waitForData` returns `false` under cancellation, the iteration completes
with an empty call log: no calibration call, no stage `process` call and no
sink `consume` call happens for that iteration. -/
theorem pipeline_no_downstream_on_cancel {α : Type}
    (s : PipelineManagerState α) (src : Nat) (q : Queue α)
    (hsrc : s.pipeline.toPipeline.source = some src)
    (hwait : SourceBase.waitForData s.sourceQueue s.sourceCancelRequested
      = (Queue.WaitResult.stopped, q)) :
    PipelineManager.runStep s = some ({ s with sourceQueue := q }, []) := by
  unfold PipelineManager.runStep
  rw [hsrc, hwait]

/-- Witness for C6 at a concrete pipeline state: one sink, a cancelled
source with an empty output queue. -/
theorem pipeline_no_downstream_on_cancel_witness :
    PipelineManager.runStep
      (α := Nat)
      { pipeline := { toPipeline := { source := some 0, stages := [], sinks := [7] },
                      calibration := none },
        sourceQueue := Queue.mk [],
        sourceCancelRequested := true }
      = some ({ pipeline := { toPipeline := { source := some 0, stages := [], sinks := [7] },
                              calibration := none },
                sourceQueue := Queue.mk [],
                sourceCancelRequested := true }, []) :=
  pipeline_no_downstream_on_cancel _ 0 (Queue.mk []) rfl rfl

/-! ## Claim C2: processData order -/

namespace Pipeline

theorem sinksLoop_eq {α : Type} (sinks : List Nat) (d : α) :
    sinksLoop sinks d = sinks.map (fun sk => CallEv.consumeCall sk d) := by
  induction sinks with
  | nil => rfl
  | cons s rest ih => simp [sinksLoop, ih]

theorem stagesLoop_fst {α : Type} (stages : List (α → α)) (idx : Nat) (d : α) :
    (stagesLoop stages idx d).1 = stages.foldl (fun x f => f x) d := by
  induction stages generalizing idx d with
  | nil => rfl
  | cons f rest ih => simp [stagesLoop, ih]

theorem stagesLoop_snd {α : Type} (stages : List (α → α)) (idx : Nat) (d : α) :
    (stagesLoop stages idx d).2
      = (List.range stages.length).map (fun i =>
          CallEv.stageCall (idx + i) ((stages.take i).foldl (fun x f => f x) d)) := by
  induction stages generalizing idx d with
  | nil => rfl
  | cons f rest ih =>
    simp only [stagesLoop, ih (idx + 1) (f d), List.length_cons,
      List.range_succ_eq_map, List.map_cons, List.map_map, List.cons.injEq]
    constructor
    · simp
    · apply List.map_congr_left
      intro i _
      simp only [Function.comp_apply, List.take_succ_cons, List.foldl_cons]
      congr 1
      omega

end Pipeline

/-- Application of an optional calibration plugin to a sample. -/
def calApply {α : Type} (c : Option (α → α)) (d : α) : α :=
  match c with
  | some cal => cal d
  | none => d

/-- C2: for every sample, `processData` applies the calibration first when
one is set, then runs each stage in list order on the successively mutated
sample, then calls `consume` on each sink in insertion order, handing every
sink the final value; with no calibration and an empty stage list, a stream
of samples reaches all sinks unchanged and in order. -/
theorem pipeline_processData_spec (α : Type) (p : EyeDataPipeline α) (d : α)
    (samples : List α) :
    ((p.processData d).1
      = p.toPipeline.stages.foldl (fun x f => f x) (calApply p.calibration d))
    ∧ ((p.processData d).2 =
        (match p.calibration with
         | some _ => [CallEv.calibrateCall d]
         | none => []) ++
        ((List.range p.toPipeline.stages.length).map (fun i =>
          CallEv.stageCall i
            ((p.toPipeline.stages.take i).foldl (fun x f => f x)
              (calApply p.calibration d)))) ++
        (p.toPipeline.sinks.map (fun sk =>
          CallEv.consumeCall sk
            (p.toPipeline.stages.foldl (fun x f => f x)
              (calApply p.calibration d)))))
    ∧ (p.calibration = none → p.toPipeline.stages = [] →
        p.processSamples samples
          = samples.flatMap (fun x =>
              p.toPipeline.sinks.map (fun sk => CallEv.consumeCall sk x))) := by
  refine ⟨?_, ?_, ?_⟩
  · cases hc : p.calibration <;>
      simp [EyeDataPipeline.processData, Pipeline.processData, hc, calApply,
        Pipeline.stagesLoop_fst]
  · cases hc : p.calibration <;>
      simp [EyeDataPipeline.processData, Pipeline.processData, hc, calApply,
        Pipeline.stagesLoop_fst, Pipeline.stagesLoop_snd, Pipeline.sinksLoop_eq]
  · intro hc hs
    induction samples with
    | nil => simp [EyeDataPipeline.processSamples]
    | cons x rest ih =>
      simp only [EyeDataPipeline.processSamples, List.flatMap_cons, ih]
      simp [EyeDataPipeline.processData, Pipeline.processData, hc, hs,
        Pipeline.stagesLoop, Pipeline.sinksLoop_eq]

/-- Witness for C2 at a concrete pipeline: no calibration, no stages, two
sinks, two samples: every sample reaches both sinks unchanged and in
order. -/
theorem pipeline_processData_spec_witness :
    EyeDataPipeline.processSamples
      { toPipeline := { source := none, stages := [], sinks := [1, 2] },
        calibration := none }
      [10, 20]
      = [10, 20].flatMap (fun x => [1, 2].map (fun sk => CallEv.consumeCall sk x)) :=
  (pipeline_processData_spec Nat
    { toPipeline := { source := none, stages := [], sinks := [1, 2] },
      calibration := none } 0 [10, 20]).2.2 rfl rfl

/-! ## Claim C10: the observable runtime state never reports SAVING -/

/-- C10: `GetRuntimeState` maps the controller state SAVING to RUNNING,
RUNNING to RUNNING, STANDBY to STANDBY, and IDLE to STANDBY when graphics is
initialized and to DEFAULT otherwise; in particular it never reports
SAVING. -/
theorem getRuntimeState_spec (s : ProtocolManager) (graphicsInitDone : Bool) :
    ProtocolManager.GetRuntimeState s graphicsInitDone
      = (match s.state with
         | PState.saving => RuntimeState.running
         | PState.running => RuntimeState.running
         | PState.standby => RuntimeState.standby
         | PState.idle =>
           if graphicsInitDone then RuntimeState.standby else RuntimeState.default)
    ∧ ProtocolManager.GetRuntimeState s graphicsInitDone ≠ RuntimeState.saving := by
  cases h : s.state <;>
    cases graphicsInitDone <;>
      simp [ProtocolManager.GetRuntimeState, h]

/-- Witness for C10: a controller in SAVING with graphics initialized is
reported as RUNNING, never as SAVING. -/
theorem getRuntimeState_spec_witness :
    ProtocolManager.GetRuntimeState
      { ProtocolManager.initState with state := PState.saving } true
      ≠ RuntimeState.saving :=
  (getRuntimeState_spec { ProtocolManager.initState with state := PState.saving } true).2

/-! ## Claims C1 and C8: ProtocolRequest dispatch and SetProtocol -/

namespace MessageManager

theorem scanTasks_spec (reg : Registry) (tasks : List Task) :
    scanTasks reg tasks
      = ((tasks.filter (fun t => (reg t.name).isNone)).map Task.name, tasks) := by
  have general : ∀ (acc : List String × List Task),
      tasks.foldl
        (fun acc task =>
          match reg task.name with
          | none => (acc.1 ++ [task.name], acc.2 ++ [task])
          | some _ => (acc.1, acc.2 ++ [task])) acc
        = (acc.1 ++ (tasks.filter (fun t => (reg t.name).isNone)).map Task.name,
           acc.2 ++ tasks) := by
    induction tasks with
    | nil => intro acc; simp
    | cons t rest ih =>
      intro acc
      cases h : reg t.name <;>
        simp [List.filter_cons, h, ih]
  exact general ([], [])

end MessageManager

/-- C1: while the controller is RUNNING, `SetProtocol` is rejected — it
returns `false` without touching the stored protocol or the pending flag —
and the reply boundary turns the rejection into a Busy error; in every other
state `SetProtocol` replaces the current protocol and sets the pending
flag. -/
theorem setProtocol_running_busy (available : List String) (reg : Registry)
    (freshUuid : String) (s : ProtocolManager) (req p : ProtocolRequest)
    (hav : available ≠ []) :
    (s.state = PState.running →
      ProtocolManager.SetProtocol s p = (false, s)
      ∧ MessageManager.handleProtocolRequest available reg freshUuid s req
          = (Except.error ErrorKind.busy, s,
             (req.tasks.filter (fun t => (reg t.name).isNone)).map Task.name))
    ∧ (s.state ≠ PState.running →
      (ProtocolManager.SetProtocol s p).1 = true
      ∧ (ProtocolManager.SetProtocol s p).2
          = { s with currentProtocol := some p, protocolUpdated := true }) := by
  constructor
  · intro h
    have hempty : available.isEmpty = false := by
      cases available with
      | nil => exact absurd rfl hav
      | cons a rest => rfl
    constructor
    · simp [ProtocolManager.SetProtocol, h]
    · simp [MessageManager.handleProtocolRequest, hempty,
        MessageManager.scanTasks_spec, ProtocolManager.SetProtocol, h]
  · intro h
    constructor <;> simp [ProtocolManager.SetProtocol, h]

/-- Witness for C1: a RUNNING controller rejects a concrete request with
Busy and is left intact; an IDLE controller accepts and sets the pending
flag. -/
theorem setProtocol_running_busy_witness :
    (MessageManager.handleProtocolRequest ["A"] (fun _ => none) "u"
        { ProtocolManager.initState with state := PState.running }
        { name := "P", participant_id := "", notes := "",
          tasks := [{ name := "T", configuration := "" }], protocol_uuid := "" }
      = (Except.error ErrorKind.busy,
         { ProtocolManager.initState with state := PState.running },
         (([{ name := "T", configuration := "" }] : List Task).filter
            (fun t => ((fun _ => none : Registry) t.name).isNone)).map Task.name))
    ∧ (ProtocolManager.SetProtocol ProtocolManager.initState
        { name := "P", participant_id := "", notes := "", tasks := [],
          protocol_uuid := "" }).1 = true :=
  ⟨((setProtocol_running_busy ["A"] (fun _ => none) "u"
      { ProtocolManager.initState with state := PState.running }
      { name := "P", participant_id := "", notes := "",
        tasks := [{ name := "T", configuration := "" }], protocol_uuid := "" }
      { name := "P", participant_id := "", notes := "", tasks := [],
        protocol_uuid := "" }
      (by simp)).1 rfl).2,
   ((setProtocol_running_busy ["A"] (fun _ => none) "u"
      ProtocolManager.initState
      { name := "P", participant_id := "", notes := "",
        tasks := [{ name := "T", configuration := "" }], protocol_uuid := "" }
      { name := "P", participant_id := "", notes := "", tasks := [],
        protocol_uuid := "" }
      (by simp)).2 (by simp [ProtocolManager.initState])).1⟩

/-- Registry for the C8 counterexample: exactly one plugin named A. -/
def regC8 : Registry := fun n => if n = "A" then some { isRender := true } else none

/-- Request for the C8 counterexample: its only task name is unknown to the
registry, so validation leaves zero valid tasks. -/
def reqC8 : ProtocolRequest :=
  { name := "P", participant_id := "u", notes := "",
    tasks := [{ name := "Unknown", configuration := "" }], protocol_uuid := "" }

/-- C8 counterexample: the claim says the handler fails with NoMessage when
validation would leave zero valid tasks.  With a non-empty registry and a
request whose only task name is unknown, validation leaves zero valid tasks,
yet the handler succeeds and the unknown task is retained in the stored
protocol: `no_message` is emitted only when the registry itself is empty,
and the scan loop never filters tasks out. -/
theorem protocolRequest_noMessage_counterexample :
    (reqC8.tasks.filter (fun t => (regC8 t.name).isSome) = [])
    ∧ ((MessageManager.handleProtocolRequest ["A"] regC8 "uuid-1"
          ProtocolManager.initState reqC8).1 = Except.ok ())
    ∧ ((MessageManager.handleProtocolRequest ["A"] regC8 "uuid-1"
          ProtocolManager.initState reqC8).2.1.currentProtocol
        = some { reqC8 with protocol_uuid := "uuid-1" }) := by
  refine ⟨by decide, rfl, rfl⟩

/-- C8 (amended): the handler fails with NoMessage exactly when the plugin
registry reports no available plugins at all; otherwise it looks every task
name up in the registry, soft-logging the unknown names in request order
while keeping every task (validation does not filter the task list), assigns
the fresh UUID only when the request carries none, hands the protocol to the
controller, and fails with Busy exactly when the controller rejects it
(RUNNING). -/
theorem protocolRequest_dispatch_spec (available : List String) (reg : Registry)
    (freshUuid : String) (s : ProtocolManager) (req : ProtocolRequest) :
    MessageManager.handleProtocolRequest available reg freshUuid s req
      = (if available.isEmpty then
           (Except.error ErrorKind.noMessage, s, ([] : List String))
         else if s.state = PState.running then
           (Except.error ErrorKind.busy, s,
            (req.tasks.filter (fun t => (reg t.name).isNone)).map Task.name)
         else
           (Except.ok (),
            { s with
              currentProtocol := some (MessageManager.assignUuid freshUuid req),
              protocolUpdated := true },
            (req.tasks.filter (fun t => (reg t.name).isNone)).map Task.name)) := by
  by_cases hav : available.isEmpty
  · simp [MessageManager.handleProtocolRequest, hav]
  · have heta : { req with tasks := req.tasks } = req := rfl
    by_cases hrun : s.state = PState.running <;>
      simp [MessageManager.handleProtocolRequest, hav,
        MessageManager.scanTasks_spec, heta, ProtocolManager.SetProtocol, hrun]

/-! ## Claim C3: graphics settings applied exactly once, in DEFAULT -/

namespace GraphicsManager

theorem reachable_applied_inv (s : GraphicsManager) (h : Reachable s) :
    s.applied.length ≤ 1 ∧ (s.state = GState.default → s.applied = []) := by
  induction h with
  | refl => simp [initState]
  | tail hsteps step ih =>
    cases step with
    | run =>
      rename_i b
      cases hbs : b.state with
      | ready =>
        simpa [runStep, hbs] using ih
      | default =>
        cases hq : b.settingsQueue with
        | nil => simpa [runStep, hbs, hq] using ih
        | cons r rest =>
          have happ := ih.2 hbs
          simp [runStep, hbs, hq, applyGraphicsSettings, happ]
    | set req =>
      rename_i b
      by_cases hbs : b.state = GState.default <;>
        simpa [SetGraphicsSettings, hbs] using ih

end GraphicsManager

/-- C3: in every reachable execution of the graphics manager, settings are
applied at most once and only while the state is still DEFAULT (the DEFAULT
branch of the render loop consumes a queued request, records the settings,
marks graphics initialized and moves to READY); every `SetGraphicsSettings`
call made in any later state fails with `operation_not_permitted` and leaves
the manager — including the applied settings with their monitor index and
resolution — entirely unchanged. -/
theorem graphicsSettings_applied_once (s : GraphicsManager)
    (h : GraphicsManager.Reachable s) :
    s.applied.length ≤ 1
    ∧ (s.state = GState.default → s.applied = [])
    ∧ (∀ req, s.state ≠ GState.default →
        GraphicsManager.SetGraphicsSettings s req = (some ErrorKind.notPermitted, s))
    ∧ (∀ r rest, s.state = GState.default → s.settingsQueue = r :: rest →
        GraphicsManager.runStep s
          = { s with settingsQueue := rest, graphicsSettings := some r,
                     graphicsInitDone := true, state := GState.ready,
                     applied := s.applied ++ [r] }) := by
  refine ⟨(GraphicsManager.reachable_applied_inv s h).1,
    (GraphicsManager.reachable_applied_inv s h).2, ?_, ?_⟩
  · intro req hne
    simp [GraphicsManager.SetGraphicsSettings, hne]
  · intro r rest hdef hq
    simp [GraphicsManager.runStep, hdef, hq, GraphicsManager.applyGraphicsSettings]

/-- Concrete request used by the C3 witness. -/
def gfxReq0 : GraphicsSettingsRequest :=
  { graphics_settings :=
      { monitor_index := 0, vsync := true, full_screen := false,
        anti_aliasing := false, target_fps := 60, width := 640, height := 480 },
    view_distance_mm := 500 }

/-- Witness for C3: after one accepted request and one render-loop
iteration the settings have been applied once, and a second request is
rejected with `operation_not_permitted`, leaving the state unchanged. -/
theorem graphicsSettings_applied_once_witness :
    (GraphicsManager.runStep
        (GraphicsManager.SetGraphicsSettings GraphicsManager.initState gfxReq0).2).applied.length ≤ 1
    ∧ GraphicsManager.SetGraphicsSettings
        (GraphicsManager.runStep
          (GraphicsManager.SetGraphicsSettings GraphicsManager.initState gfxReq0).2) gfxReq0
        = (some ErrorKind.notPermitted,
           GraphicsManager.runStep
             (GraphicsManager.SetGraphicsSettings GraphicsManager.initState gfxReq0).2) := by
  have hreach : GraphicsManager.Reachable
      (GraphicsManager.runStep
        (GraphicsManager.SetGraphicsSettings GraphicsManager.initState gfxReq0).2) :=
    Relation.ReflTransGen.tail
      (Relation.ReflTransGen.tail Relation.ReflTransGen.refl
        (GraphicsManager.Step.set gfxReq0 GraphicsManager.initState))
      (GraphicsManager.Step.run _)
  exact ⟨(graphicsSettings_applied_once _ hreach).1,
    (graphicsSettings_applied_once _ hreach).2.2.1 gfxReq0 (by decide)⟩

/-! ## Claim C7: the command state machine of the protocol controller -/

/-- C7: with the controller RUNNING, a NEXT command advances the task index
by one — tearing the current task down with a TASK_END broadcast — and
enters SAVING exactly when the advanced index is past the end of the task
list, while an in-range advance (to a registered render plugin) stays
RUNNING with the index incremented and TASK_END, TASK_START broadcast in
order; a STOP command jumps the index past the end, so it always tears the
current task down and enters SAVING; and the SAVING branch of the run loop
cleans up the current task (removes the pipeline sinks, stops the data
writer, drops the group, shuts the plugin down and clears the graphics
task), drops the dataset file, resets the index and returns to STANDBY
without broadcasting; moreover NEXT and STOP are acted on only in RUNNING —
in any other state the command is consumed with no effect. -/
theorem protocol_command_machine (reg : Registry) (u : String)
    (s : ProtocolManager) (p : ProtocolRequest) (t : Task)
    (h1 : s.state = PState.running)
    (h2 : s.currentProtocol = some p)
    (h3 : s.currentTask = some t) :
    (p.tasks.length ≤ s.currentTaskIndex + 1 →
      (ProtocolManager.pollCommands reg u { s with commandQueue := [Command.next] }).state
          = PState.saving
      ∧ (ProtocolManager.pollCommands reg u { s with commandQueue := [Command.next] }).trace
          = s.trace ++ [ProtocolEvent.taskEnd s.currentTaskIndex]
      ∧ (ProtocolManager.pollCommands reg u { s with commandQueue := [Command.next] }).currentTask
          = none)
    ∧ (∀ entry : PluginEntry,
        s.currentTaskIndex + 1 < p.tasks.length →
        reg (p.tasks.getD (s.currentTaskIndex + 1)
              { name := "", configuration := "" }).name = some entry →
        entry.isRender = true →
        (ProtocolManager.pollCommands reg u { s with commandQueue := [Command.next] }).state
            = PState.running
        ∧ (ProtocolManager.pollCommands reg u { s with commandQueue := [Command.next] }).currentTaskIndex
            = s.currentTaskIndex + 1
        ∧ (ProtocolManager.pollCommands reg u { s with commandQueue := [Command.next] }).trace
            = s.trace ++ [ProtocolEvent.taskEnd s.currentTaskIndex,
                          ProtocolEvent.taskStart (s.currentTaskIndex + 1)])
    ∧ ((ProtocolManager.pollCommands reg u { s with commandQueue := [Command.stop] }).state
          = PState.saving
      ∧ (ProtocolManager.pollCommands reg u { s with commandQueue := [Command.stop] }).trace
          = s.trace ++ [ProtocolEvent.taskEnd s.currentTaskIndex]
      ∧ (ProtocolManager.pollCommands reg u { s with commandQueue := [Command.stop] }).currentTask
          = none)
    ∧ (ProtocolManager.runStep reg u { startRequested := false, taskFinished := false }
          { s with state := PState.saving, commandQueue := [] }
        = { s with state := PState.standby, commandQueue := [], pipelineSinks := [],
                   writerRunning := false, hasGroup := false, currentTask := none,
                   graphicsTask := none, hasFile := false, currentTaskIndex := 0 })
    ∧ (∀ s2 : ProtocolManager, s2.state ≠ PState.running →
        ProtocolManager.pollCommands reg u { s2 with commandQueue := [Command.next] }
            = { s2 with commandQueue := [] }
        ∧ ProtocolManager.pollCommands reg u { s2 with commandQueue := [Command.stop] }
            = { s2 with commandQueue := [] }) := by
  refine ⟨?_, ?_, ?_, ?_, ?_⟩
  · intro hlen
    refine ⟨?_, ?_, ?_⟩ <;>
      simp [ProtocolManager.pollCommands, ProtocolManager.loadTask,
        ProtocolManager.loadTaskCore, h1, h2, h3, hlen]
  · intro entry hlen hreg hrender
    have hnot : ¬ (p.tasks.length ≤ s.currentTaskIndex + 1) := by omega
    simp only [List.getD, List.get?_eq_getElem?] at hreg
    refine ⟨?_, ?_, ?_⟩ <;>
      simp [ProtocolManager.pollCommands, ProtocolManager.loadTask,
        ProtocolManager.loadTaskCore, h1, h2, h3, hnot, hreg, hrender]
  · refine ⟨?_, ?_, ?_⟩ <;>
      simp [ProtocolManager.pollCommands, ProtocolManager.loadTask,
        ProtocolManager.loadTaskCore, h1, h2, h3]
  · simp [ProtocolManager.runStep, ProtocolManager.pollCommands,
      ProtocolManager.cleanupCurrentTask, h3]
  · intro s2 hne
    constructor <;> simp [ProtocolManager.pollCommands, hne]

/-- Registry for the C7 witness: two render plugins T0 and T1. -/
def regC7 : Registry := fun n =>
  if n = "T0" then some { isRender := true }
  else if n = "T1" then some { isRender := true }
  else none

/-- Protocol for the C7 witness: two tasks T0 and T1. -/
def protC7 : ProtocolRequest :=
  { name := "P", participant_id := "u", notes := "",
    tasks := [{ name := "T0", configuration := "" },
              { name := "T1", configuration := "" }],
    protocol_uuid := "id" }

/-- Running controller on task 0 of the two-task protocol. -/
def sC7a : ProtocolManager :=
  { ProtocolManager.initState with
    state := PState.running,
    currentProtocol := some protC7,
    currentTask := some { name := "T0", configuration := "" },
    currentTaskIndex := 0 }

/-- Running controller on task 1 (the last task) of the two-task protocol. -/
def sC7b : ProtocolManager :=
  { ProtocolManager.initState with
    state := PState.running,
    currentProtocol := some protC7,
    currentTask := some { name := "T1", configuration := "" },
    currentTaskIndex := 1 }

/-- Witness for C7: on the last task, NEXT enters SAVING; on task 0, NEXT
advances the index to 1 and stays RUNNING; STOP enters SAVING from task 0;
and the SAVING branch returns to STANDBY. -/
theorem protocol_command_machine_witness :
    ((ProtocolManager.pollCommands regC7 "u"
        { sC7b with commandQueue := [Command.next] }).state = PState.saving)
    ∧ ((ProtocolManager.pollCommands regC7 "u"
        { sC7a with commandQueue := [Command.next] }).currentTaskIndex = 1)
    ∧ ((ProtocolManager.pollCommands regC7 "u"
        { sC7a with commandQueue := [Command.stop] }).state = PState.saving)
    ∧ ((ProtocolManager.runStep regC7 "u"
        { startRequested := false, taskFinished := false }
        { sC7a with state := PState.saving, commandQueue := [] }).state
        = PState.standby) :=
  ⟨((protocol_command_machine regC7 "u" sC7b protC7
      { name := "T1", configuration := "" } rfl rfl rfl).1 (by decide)).1,
   ((protocol_command_machine regC7 "u" sC7a protC7
      { name := "T0", configuration := "" } rfl rfl rfl).2.1
      { isRender := true } (by decide) (by decide) rfl).2.1,
   ((protocol_command_machine regC7 "u" sC7a protC7
      { name := "T0", configuration := "" } rfl rfl rfl).2.2.1).1,
   by
     rw [(protocol_command_machine regC7 "u" sC7a protC7
       { name := "T0", configuration := "" } rfl rfl rfl).2.2.2.1]⟩

/-! ## Claim C9: order of lifecycle broadcasts -/

namespace Phase

theorem self_mem_closure (p : Phase) : p ∈ p.closure := by
  cases p <;> simp [closure]

theorem closure_trans {p x y : Phase} (h1 : x ∈ p.closure) (h2 : y ∈ x.closure) :
    y ∈ p.closure := by
  cases p <;> cases x <;> cases y <;> simp_all [closure]

end Phase

theorem reachPhases_append (t : List ProtocolEvent) (e : ProtocolEvent) :
    reachPhases (t ++ [e])
      = (reachPhases t).flatMap (fun p => Phase.stepNfa p e) := by
  simp [reachPhases, List.foldl_append]

theorem mem_reach_append {t : List ProtocolEvent} {e : ProtocolEvent}
    {P x Q : Phase} (hP : P ∈ reachPhases t) (hx : x ∈ P.closure)
    (hstep : Phase.stepBase x e = some Q) : Q ∈ reachPhases (t ++ [e]) := by
  rw [reachPhases_append]
  refine List.mem_flatMap.mpr ⟨P, hP, ?_⟩
  unfold Phase.stepNfa
  exact List.mem_filterMap.mpr ⟨x, hx, hstep⟩

/-- Invariant of the protocol manager tying the emitted trace to the
broadcast-order automaton, together with the auxiliary facts the induction
needs about tasks and the pending flag. -/
structure PMInv (s : ProtocolManager) : Prop where
  phase_mem : ∃ P ∈ reachPhases s.trace, phaseOf s ∈ P.closure
  updated_prot : s.protocolUpdated = true → s.currentProtocol.isSome = true
  standby_noTask : s.state = PState.standby → s.currentTask = none
  running_task : s.state = PState.running → s.currentTask.isSome = true
  idle_noTask : s.state = PState.idle → s.currentTask = none

theorem inv_initState : PMInv ProtocolManager.initState := by
  refine ⟨⟨Phase.pIdle, ?_, ?_⟩, ?_, ?_, ?_, ?_⟩ <;>
    simp [ProtocolManager.initState, reachPhases, phaseOf, Phase.closure]

theorem inv_setProtocol (s : ProtocolManager) (p : ProtocolRequest)
    (h : PMInv s) : PMInv (ProtocolManager.SetProtocol s p).2 := by
  unfold ProtocolManager.SetProtocol
  by_cases hr : s.state = PState.running
  · simpa [hr] using h
  · simp only [hr, if_neg, if_false]
    obtain ⟨P, hP, hmem⟩ := h.phase_mem
    refine ⟨⟨P, ?_, ?_⟩, ?_, ?_, ?_, ?_⟩ <;>
      simp_all [phaseOf]
    · exact h.standby_noTask
    · exact h.idle_noTask

theorem inv_enqueueCommand (s : ProtocolManager) (c : Command)
    (h : PMInv s) : PMInv (ProtocolManager.EnqueueCommand s c) := by
  unfold ProtocolManager.EnqueueCommand
  obtain ⟨P, hP, hmem⟩ := h.phase_mem
  refine ⟨⟨P, ?_, ?_⟩, ?_, ?_, ?_, ?_⟩ <;>
    simp_all [phaseOf]
  · exact h.updated_prot
  · exact h.standby_noTask
  · exact h.running_task
  · exact h.idle_noTask

theorem inv_loadProtocol (s : ProtocolManager) (h : PMInv s)
    (hupd : s.protocolUpdated = true)
    (hstate : s.state = PState.idle ∨ s.state = PState.standby) :
    PMInv (ProtocolManager.loadProtocol s) := by
  obtain ⟨p, hp⟩ := Option.isSome_iff_exists.mp (h.updated_prot hupd)
  obtain ⟨P, hP, hmem⟩ := h.phase_mem
  have htask : s.currentTask = none := by
    cases hstate with
    | inl hi => exact h.idle_noTask hi
    | inr hs => exact h.standby_noTask hs
  have hstep : Phase.stepBase (phaseOf s) ProtocolEvent.protocolLoaded
      = some Phase.pLoaded := by
    cases hstate with
    | inl hi => simp [phaseOf, hi, Phase.stepBase]
    | inr hs => simp [phaseOf, hs, Phase.stepBase]
  have hnew : Phase.pLoaded ∈ reachPhases (s.trace ++ [ProtocolEvent.protocolLoaded]) :=
    mem_reach_append hP hmem hstep
  unfold ProtocolManager.loadProtocol
  refine ⟨⟨Phase.pLoaded, ?_, ?_⟩, ?_, ?_, ?_, ?_⟩ <;>
    simp_all [phaseOf, Phase.self_mem_closure]

theorem inv_loadTaskCore (reg : Registry) (s : ProtocolManager)
    (p : ProtocolRequest) (ni : Nat)
    (hprot : s.currentProtocol = some p)
    (hcase :
      (s.state = PState.running ∧ s.currentTask.isSome = true ∧
        ∃ P ∈ reachPhases s.trace, Phase.pTask ∈ P.closure)
      ∨ (s.state = PState.standby ∧ s.currentTask = none ∧
        Phase.pRun ∈ reachPhases s.trace)) :
    PMInv (ProtocolManager.loadTaskCore reg s p ni) := by
  rcases hcase with ⟨hrun, htask, P, hP, hmem⟩ | ⟨hstandby, htask, hrun_mem⟩
  · obtain ⟨c, hc⟩ := Option.isSome_iff_exists.mp htask
    have hEnd : Phase.pRun ∈ reachPhases
        (s.trace ++ [ProtocolEvent.taskEnd s.currentTaskIndex]) :=
      mem_reach_append hP hmem rfl
    simp only [ProtocolManager.loadTaskCore, hc]
    by_cases hlen : p.tasks.length ≤ ni
    · rw [if_pos hlen]
      refine ⟨⟨Phase.pRun, ?_, ?_⟩, ?_, ?_, ?_, ?_⟩ <;>
        simp_all [phaseOf, Phase.self_mem_closure]
    · rw [if_neg hlen]
      cases hreg : reg ((p.tasks.getD ni { name := "", configuration := "" }).name) with
      | none =>
        simp only [hreg]
        refine ⟨⟨Phase.pRun, ?_, ?_⟩, ?_, ?_, ?_, ?_⟩ <;>
          simp_all [phaseOf, Phase.self_mem_closure]
      | some entry =>
        simp only [hreg]
        by_cases hrender : entry.isRender = true
        · rw [if_pos hrender]
          have hStart : Phase.pTask ∈ reachPhases
              ((s.trace ++ [ProtocolEvent.taskEnd s.currentTaskIndex])
                ++ [ProtocolEvent.taskStart ni]) :=
            mem_reach_append hEnd (Phase.self_mem_closure _) rfl
          refine ⟨⟨Phase.pTask, ?_, ?_⟩, ?_, ?_, ?_, ?_⟩ <;>
            simp_all [phaseOf, Phase.self_mem_closure]
        · rw [if_neg hrender]
          refine ⟨⟨Phase.pRun, ?_, ?_⟩, ?_, ?_, ?_, ?_⟩ <;>
            simp_all [phaseOf, Phase.self_mem_closure]
  · simp only [ProtocolManager.loadTaskCore, htask]
    by_cases hlen : p.tasks.length ≤ ni
    · rw [if_pos hlen]
      refine ⟨⟨Phase.pRun, ?_, ?_⟩, ?_, ?_, ?_, ?_⟩ <;>
        simp_all [phaseOf, Phase.self_mem_closure]
    · rw [if_neg hlen]
      cases hreg : reg ((p.tasks.getD ni { name := "", configuration := "" }).name) with
      | none =>
        simp only [hreg]
        refine ⟨⟨Phase.pRun, ?_, ?_⟩, ?_, ?_, ?_, ?_⟩ <;>
          simp_all [phaseOf, Phase.self_mem_closure]
      | some entry =>
        simp only [hreg]
        by_cases hrender : entry.isRender = true
        · rw [if_pos hrender]
          have hStart : Phase.pTask ∈ reachPhases
              (s.trace ++ [ProtocolEvent.taskStart ni]) :=
            mem_reach_append hrun_mem (Phase.self_mem_closure _) rfl
          refine ⟨⟨Phase.pTask, ?_, ?_⟩, ?_, ?_, ?_, ?_⟩ <;>
            simp_all [phaseOf, Phase.self_mem_closure]
        · rw [if_neg hrender]
          refine ⟨⟨Phase.pRun, ?_, ?_⟩, ?_, ?_, ?_, ?_⟩ <;>
            simp_all [phaseOf, Phase.self_mem_closure]

theorem inv_pollCommands (reg : Registry) (u : String) (s : ProtocolManager)
    (h : PMInv s) : PMInv (ProtocolManager.pollCommands reg u s) := by
  obtain ⟨st, cp, pu, ct, cti, hf, hg, wr, ps, gt, sn, cq, tr⟩ := s
  unfold ProtocolManager.pollCommands
  cases cq with
  | nil => exact h
  | cons cmd rest =>
    have h0 : PMInv ⟨st, cp, pu, ct, cti, hf, hg, wr, ps, gt, sn, rest, tr⟩ :=
      ⟨h.phase_mem, h.updated_prot, h.standby_noTask, h.running_task, h.idle_noTask⟩
    cases cmd with
    | start =>
      by_cases hst : st = PState.standby
      · subst hst
        cases cp with
        | none =>
          simp only [ProtocolManager.loadTask]
          simpa using h0
        | some p =>
          obtain ⟨P, hP, hmem⟩ := h.phase_mem
          have hmem2 : Phase.pLoaded ∈ P.closure := by
            simpa [phaseOf] using hmem
          have hnew : Phase.pRun ∈ reachPhases (tr ++ [ProtocolEvent.protocolNew]) :=
            mem_reach_append hP hmem2 rfl
          have htask : ct = none := h.standby_noTask rfl
          simp only [ProtocolManager.loadTask]
          refine inv_loadTaskCore reg _ _ 0 rfl (Or.inr ⟨rfl, ?_, ?_⟩)
          · simpa using htask
          · simpa using hnew
      · simp only [if_neg hst]
        simpa using h0
    | stop =>
      by_cases hst : st = PState.running
      · subst hst
        cases cp with
        | none =>
          simp only [ProtocolManager.loadTask]
          simpa using h0
        | some p =>
          obtain ⟨P, hP, hmem⟩ := h.phase_mem
          have htask := h.running_task rfl
          simp only [ProtocolManager.loadTask]
          refine inv_loadTaskCore reg _ _ _ rfl (Or.inl ⟨rfl, ?_, ⟨P, ?_, ?_⟩⟩)
          · simpa using htask
          · simpa using hP
          · simpa [phaseOf] using hmem
      · simp only [if_neg hst]
        simpa using h0
    | next =>
      by_cases hst : st = PState.running
      · subst hst
        cases cp with
        | none =>
          simp only [ProtocolManager.loadTask]
          simpa using h0
        | some p =>
          obtain ⟨P, hP, hmem⟩ := h.phase_mem
          have htask := h.running_task rfl
          simp only [ProtocolManager.loadTask]
          refine inv_loadTaskCore reg _ _ _ rfl (Or.inl ⟨rfl, ?_, ⟨P, ?_, ?_⟩⟩)
          · simpa using htask
          · simpa using hP
          · simpa [phaseOf] using hmem
      · simp only [if_neg hst]
        simpa using h0
    | exit =>
      by_cases hst : st = PState.running
      · subst hst
        obtain ⟨P, hP, hmem⟩ := h.phase_mem
        have htask := h.running_task rfl
        simp only [if_pos rfl]
        refine ⟨⟨P, by simpa using hP, ?_⟩, h.updated_prot, ?_, ?_, ?_⟩
        · simpa [phaseOf, htask] using hmem
        · simp
        · simp
        · simp
      · simp only [if_neg hst]
        simpa using h0

theorem inv_runStep (reg : Registry) (u : String) (inp : ProtocolManager.RunInputs)
    (s : ProtocolManager) (h : PMInv s) :
    PMInv (ProtocolManager.runStep reg u inp s) := by
  have h0 := inv_pollCommands reg u s h
  unfold ProtocolManager.runStep
  generalize ProtocolManager.pollCommands reg u s = s0 at h0 ⊢
  obtain ⟨st0, cp0, pu0, ct0, cti0, hf0, hg0, wr0, ps0, gt0, sn0, cq0, tr0⟩ := s0
  cases st0 with
  | idle =>
    cases pu0 with
    | false => simpa using h0
    | true =>
      simp only [if_pos rfl]
      exact inv_loadProtocol _ h0 rfl (Or.inl rfl)
  | standby =>
    cases pu0 with
    | false =>
      cases hreq : inp.startRequested with
      | false => simpa [hreq] using h0
      | true =>
        simpa [hreq, ProtocolManager.EnqueueCommand] using
          inv_enqueueCommand _ Command.start h0
    | true =>
      have h2 := inv_loadProtocol _ h0 rfl (Or.inr rfl)
      cases hreq : inp.startRequested with
      | false => simpa [hreq] using h2
      | true =>
        simpa [hreq, ProtocolManager.EnqueueCommand] using
          inv_enqueueCommand _ Command.start h2
  | running =>
    cases hreq : inp.taskFinished with
    | false => simpa using h0
    | true =>
      simp only [hreq, if_pos rfl]
      exact inv_enqueueCommand _ _ h0
  | saving =>
    obtain ⟨P, hP, hmem⟩ := h0.phase_mem
    unfold ProtocolManager.cleanupCurrentTask
    cases ct0 with
    | none =>
      refine ⟨⟨P, by simpa using hP, ?_⟩, h0.updated_prot, ?_, ?_, ?_⟩
      · have hx : Phase.pRun ∈ P.closure := by simpa [phaseOf] using hmem
        have hy : Phase.pLoaded ∈ Phase.pRun.closure := by simp [Phase.closure]
        simpa [phaseOf] using Phase.closure_trans hx hy
      · simp
      · simp
      · simp
    | some c =>
      refine ⟨⟨P, by simpa using hP, ?_⟩, h0.updated_prot, ?_, ?_, ?_⟩
      · have hx : Phase.pTask ∈ P.closure := by simpa [phaseOf] using hmem
        have hy : Phase.pLoaded ∈ Phase.pTask.closure := by simp [Phase.closure]
        simpa [phaseOf] using Phase.closure_trans hx hy
      · simp
      · simp
      · simp

/-- Every reachable state of the protocol manager satisfies the
broadcast-order invariant. -/
theorem inv_reachable (reg : Registry) (s : ProtocolManager)
    (h : ProtocolManager.Reachable reg s) : PMInv s := by
  induction h with
  | refl => exact inv_initState
  | tail hsteps step ih =>
    cases step with
    | run u inp => exact inv_runStep reg u inp _ ih
    | setProt p => exact inv_setProtocol _ p ih
    | enqueue c => exact inv_enqueueCommand _ c ih

/-- C9 (amended): the lifecycle broadcasts on the PROTOCOL topic are never
emitted out of order: in every reachable state the emitted trace is accepted
by the broadcast-order automaton, i.e. PROTOCOL_LOADED (possibly repeated
while a protocol is reloaded in standby) precedes PROTOCOL_NEW, every
TASK_START follows a PROTOCOL_NEW of its run, and TASK_START/TASK_END
strictly alternate inside a run starting with TASK_START; a run may contain
zero TASK_START/TASK_END pairs (empty task list, unknown or non-render first
task) and may end silently (SAVING broadcasts nothing). -/
theorem protocol_broadcast_order (reg : Registry) (s : ProtocolManager)
    (h : ProtocolManager.Reachable reg s) :
    reachPhases s.trace ≠ [] := by
  obtain ⟨P, hP, _⟩ := (inv_reachable reg s h).phase_mem
  exact List.ne_nil_of_mem hP

/-- Protocol with an empty task list, used by the C9 scenario. -/
def protC9 : ProtocolRequest :=
  { name := "P", participant_id := "", notes := "", tasks := [],
    protocol_uuid := "" }

/-- Registry for the C9 scenario (its contents are never consulted because
the task list is empty). -/
def regC9 : Registry := fun _ => none

/-- The C9 scenario: set an empty-task protocol, run one controller
iteration (loads it, broadcasting PROTOCOL_LOADED), enqueue START, and run
one more iteration (broadcasts PROTOCOL_NEW, finds no task 0, enters SAVING
and returns to STANDBY within the same iteration). -/
def scenarioC9 : ProtocolManager :=
  ProtocolManager.runStep regC9 "u" { startRequested := false, taskFinished := false }
    (ProtocolManager.EnqueueCommand
      (ProtocolManager.runStep regC9 "u" { startRequested := false, taskFinished := false }
        (ProtocolManager.SetProtocol ProtocolManager.initState protC9).2)
      Command.start)

/-- Witness for C9 at the concrete scenario state: its trace is a valid
prefix of the broadcast order. -/
theorem protocol_broadcast_order_witness : reachPhases scenarioC9.trace ≠ [] :=
  protocol_broadcast_order regC9 scenarioC9
    (Relation.ReflTransGen.tail
      (Relation.ReflTransGen.tail
        (Relation.ReflTransGen.tail
          (Relation.ReflTransGen.tail Relation.ReflTransGen.refl
            (ProtocolManager.Step.setProt protC9 ProtocolManager.initState))
          (ProtocolManager.Step.run "u"
            { startRequested := false, taskFinished := false } _))
        (ProtocolManager.Step.enqueue Command.start _))
      (ProtocolManager.Step.run "u"
        { startRequested := false, taskFinished := false } _))

/-- C9 counterexample: a started run of a protocol with an empty task list
completes — PROTOCOL_LOADED and PROTOCOL_NEW are broadcast, the controller
passes through SAVING and returns to STANDBY with the dataset file dropped —
while zero TASK_START/TASK_END events are broadcast, contradicting the
claimed "one or more TASK_START/TASK_END pairs" per run. -/
theorem protocol_run_without_task_pairs :
    scenarioC9.trace = [ProtocolEvent.protocolLoaded, ProtocolEvent.protocolNew]
    ∧ scenarioC9.state = PState.standby
    ∧ scenarioC9.hasFile = false
    ∧ scenarioC9.trace.filter (fun e =>
        match e with
        | ProtocolEvent.taskStart _ => true
        | ProtocolEvent.taskEnd _ => true
        | _ => false) = [] := by
  refine ⟨by decide, by decide, by decide, by decide⟩

end Reyer
